import Mathlib

/-!
Verification of the audio capture / endpointing core of `claude-voice-light`.

The development shallowly embeds the TypeScript sources:
  * `src/utils/silence.ts` — amplitude analysis, int16→float conversion and the
    silence-detector state machine;
  * `src/utils/audio.ts` — the WAV encoder `saveToWav`;
  * `src/wake-word/index.ts` — the `SherpaOnnxDetector` capture/endpointing engine.

Modelling conventions:
  * A raw audio chunk (a Node `Buffer`) is a `List Nat` of bytes (each < 256);
    the sources only ever read even-length chunks, matching the documented
    precondition that chunk byte length is always even.
  * JavaScript floating-point arithmetic on sample values is modelled with `Rat`
    (all the quantities involved — int16 sums, means, millisecond durations —
    are exactly representable, so the rational model is exact).
  * `Date.now()` is passed in explicitly as a `now : Int` parameter.
  * JavaScript truthiness of `number | null` fields (`null`, `0` falsy) is made
    explicit where the source relies on it.
  * External collaborators (the sherpa-onnx keyword spotter, the OS audio
    capture process, the filesystem) are oracles: the keyword reported by the
    spotter for a chunk, and the success of model lookup / engine construction,
    are parameters of the transition functions.
-/

/-- Model of `Buffer.readInt16LE` on the two bytes `b0` (low) and `b1` (high):
decode a little-endian signed 16-bit integer. -/
def readInt16LE (b0 b1 : Nat) : Int :=
  let u := b0 + 256 * b1
  if u < 32768 then (u : Int) else (u : Int) - 65536

/-- The sequence of little-endian int16 samples stored in a byte buffer, as
read by the loops of `calculateAmplitude` and `bufferToFloat32`
(`buffer.readInt16LE(i * 2)` for `i < buffer.length / 2`).  A trailing odd
byte never occurs (chunks are even-length by the audio-source contract). -/
def samplesLE : List Nat → List Int
  | b0 :: b1 :: rest => readInt16LE b0 b1 :: samplesLE rest
  | _ => []

/-- Embedding of `calculateAmplitude` from `src/utils/silence.ts`: the sum of the absolute
values of all int16 samples divided by the number of samples.  For an empty
buffer the source computes `0 / 0` (JavaScript `NaN`); `Rat` division by zero
yields `0`, so the function is total here as well — it never throws. -/
def calculateAmplitude (buffer : List Nat) : Rat :=
  let samples := samplesLE buffer
  (((samples.map Int.natAbs).sum : Nat) : Rat) / ((samples.length : Nat) : Rat)

/-- Embedding of `bufferToFloat32` from `src/utils/silence.ts`: each little-endian int16
sample divided by 32768.0. -/
def bufferToFloat32 (buffer : List Nat) : List Rat :=
  (samplesLE buffer).map (fun s : Int => (s : Rat) / 32768)

/-- Embedding of `isSilent` from `src/utils/silence.ts`. -/
def isSilent (buffer : List Nat) (threshold : Rat) : Bool :=
  calculateAmplitude buffer < threshold

/-- Embedding of `SilenceDetectorState` from `src/utils/silence.ts`.
`silenceStartTime : number | null` becomes `Option Int`. -/
structure SilenceDetectorState where
  silenceStartTime : Option Int
  isRecording : Bool
deriving Repr, DecidableEq

/-- Embedding of `createSilenceDetectorState` from `src/utils/silence.ts`. -/
def createSilenceDetectorState : SilenceDetectorState :=
  { silenceStartTime := none, isRecording := false }

/-- JavaScript falsiness of a `number | null` timestamp: `null` and `0` are
falsy (`!state.silenceStartTime` in the source). -/
def timeFalsy : Option Int → Bool
  | none => true
  | some t => t == 0

/-- Embedding of `updateSilenceDetector` from `src/utils/silence.ts`.  `now` stands for the
`Date.now()` call made inside the function. -/
def updateSilenceDetector (state : SilenceDetectorState) (buffer : List Nat)
    (silenceAmplitude : Rat) (silenceThresholdMs : Int) (now : Int) :
    SilenceDetectorState × Bool :=
  let amplitude := calculateAmplitude buffer
  if amplitude < silenceAmplitude then
    if timeFalsy state.silenceStartTime then
      ({ state with silenceStartTime := some now }, false)
    else if now - state.silenceStartTime.getD 0 > silenceThresholdMs then
      ({ state with silenceStartTime := none }, true)
    else
      (state, false)
  else
    ({ state with silenceStartTime := none }, false)

/-- Run `updateSilenceDetector` over a sequence of (chunk, arrival-time) pairs,
threading the state and recording whether any update reported `shouldEnd`. -/
def runDetector (st : SilenceDetectorState) (inputs : List (List Nat × Int))
    (silenceAmplitude : Rat) (silenceThresholdMs : Int) :
    SilenceDetectorState × Bool :=
  inputs.foldl
    (fun acc p =>
      let r := updateSilenceDetector acc.1 p.1 silenceAmplitude silenceThresholdMs p.2
      (r.1, acc.2 || r.2))
    (st, false)

/-- Encode one int16 value (in `[-32768, 32768)`) as its two little-endian
bytes, the inverse of `readInt16LE`.  Used to state theorems about buffers in
terms of the sample values they carry. -/
def int16ToLEBytes (v : Int) : List Nat :=
  let u := (v % 65536).toNat
  [u % 256, u / 256]

/-- Encode a list of int16 samples as an interleaved little-endian byte
buffer — the audio-source contract for chunks. -/
def encodeLE (vals : List Int) : List Nat :=
  vals.flatMap int16ToLEBytes

/-- Bytes written by `buffer.writeUInt16LE v off`, low byte first.  The
source would throw for `v ≥ 2^16`; the theorems only invoke it under that
bound. -/
def u16le (v : Nat) : List Nat :=
  [v % 256, v / 256 % 256]

/-- Bytes written by `buffer.writeUInt32LE v off`, low byte first.  The
source would throw for `v ≥ 2^32`; the theorems only invoke it under that
bound. -/
def u32le (v : Nat) : List Nat :=
  [v % 256, v / 256 % 256, v / 65536 % 256, v / 16777216 % 256]

/-- Decode a 4-byte little-endian unsigned integer (for reading header fields
back out of the encoded WAV bytes). -/
def readU32LE : List Nat → Nat
  | [b0, b1, b2, b3] => b0 + 256 * b1 + 65536 * b2 + 16777216 * b3
  | _ => 0

/-- Decode a 2-byte little-endian unsigned integer. -/
def readU16LE : List Nat → Nat
  | [b0, b1] => b0 + 256 * b1
  | _ => 0

/-- Embedding of `saveToWav` from `src/utils/audio.ts`, minus the final `fs.writeFileSync`:
the WAV byte stream it produces — a 44-byte RIFF/WAVE header (fields written
little-endian at fixed offsets) followed by the raw PCM payload.  Laying the
header out as a concatenation reproduces the source's offsets exactly:
0 "RIFF", 4 ChunkSize, 8 "WAVE", 12 "fmt ", 16 Subchunk1Size, 20 AudioFormat,
22 NumChannels, 24 SampleRate, 28 ByteRate, 32 BlockAlign, 34 BitsPerSample,
36 "data", 40 Subchunk2Size, 44 payload. -/
def saveToWav (audioBuffer : List Nat) (sampleRate channels : Nat) : List Nat :=
  let dataSize := audioBuffer.length
  let fileSize := dataSize + 36
  [82, 73, 70, 70] ++ u32le fileSize ++ [87, 65, 86, 69] ++
    [102, 109, 116, 32] ++ u32le 16 ++ u16le 1 ++ u16le channels ++
    u32le sampleRate ++ u32le (sampleRate * channels * 2) ++
    u16le (channels * 2) ++ u16le 16 ++
    [100, 97, 116, 97] ++ u32le dataSize ++ audioBuffer

/-- Embedding of `RecordingConfig` from `src/config.ts` (the fields the engine reads).
Millisecond thresholds are integers; `silenceAmplitude` and `maxDuration`
are compared against rational quantities, so they are `Rat`. -/
structure RecordingConfig where
  sampleRate : Nat
  silenceThreshold : Int
  silenceAmplitude : Rat
  maxDuration : Rat
deriving Repr, DecidableEq

/-- The mutable fields of `SherpaOnnxDetector` from `src/wake-word/index.ts`
that carry the engine's control state.  `ready` stands for
`this.kws !== null && this.stream !== null` (whether `initialize` succeeded in
constructing the external keyword spotter). -/
structure EngineState where
  ready : Bool
  isListening : Bool
  isRecordingCommand : Bool
  audioBuffer : List (List Nat)
  silenceStartTime : Option Int
deriving Repr, DecidableEq

/-- The events the engine emits (`this.emit(...)` calls).  Sound playback is a
fire-and-forget side effect and is not an event. -/
inductive EngineEvent where
  | started
  | stopped
  | wakeword
  | listening
  | command (bytes : List Nat)
deriving Repr, DecidableEq

/-- Embedding of `startCommandRecording` from `src/wake-word/index.ts`. -/
def startCommandRecording (st : EngineState) : EngineState × List EngineEvent :=
  if st.isRecordingCommand then (st, [])
  else
    ({ st with isRecordingCommand := true, audioBuffer := [], silenceStartTime := none },
      [EngineEvent.listening])

/-- Embedding of `finishRecording` from `src/wake-word/index.ts`: leave `Recording`,
concatenate the accumulated chunks, emit `command`, clear the accumulator. -/
def finishRecording (st : EngineState) : EngineState × List EngineEvent :=
  ({ st with isRecordingCommand := false, silenceStartTime := none, audioBuffer := [] },
    [EngineEvent.command st.audioBuffer.flatten])

/-- The trailing max-duration check of `checkSilenceAndFinish`:
`(totalBytes / 2 / sampleRate) * 1000 > maxDuration` forces finalization. -/
def checkMaxDuration (cfg : RecordingConfig) (st : EngineState) :
    EngineState × List EngineEvent :=
  let totalBytes := (st.audioBuffer.map List.length).sum
  let totalDuration := ((totalBytes : Rat) / 2 / (cfg.sampleRate : Rat)) * 1000
  if totalDuration > cfg.maxDuration then finishRecording st else (st, [])

/-- Embedding of `checkSilenceAndFinish` from `src/wake-word/index.ts`.  `now` stands for
the `Date.now()` calls; `silenceAmplitude || 500` is the source's falsy
default (a configured value of `0` falls back to `500`).  Only the
end-of-speech branch returns early; every other path falls through to the
max-duration check. -/
def checkSilenceAndFinish (cfg : RecordingConfig) (st : EngineState)
    (data : List Nat) (now : Int) : EngineState × List EngineEvent :=
  let amplitude := calculateAmplitude data
  let silenceAmplitude := if cfg.silenceAmplitude = 0 then 500 else cfg.silenceAmplitude
  if amplitude < silenceAmplitude then
    if timeFalsy st.silenceStartTime then
      checkMaxDuration cfg { st with silenceStartTime := some now }
    else if now - st.silenceStartTime.getD 0 > cfg.silenceThreshold then
      finishRecording st
    else
      checkMaxDuration cfg st
  else
    checkMaxDuration cfg { st with silenceStartTime := none }

/-- Model of JavaScript `String.prototype.trim`: strip leading and trailing whitespace.
Keyword strings are modelled as `List Char`. -/
def trimChars (s : List Char) : List Char :=
  ((s.dropWhile Char.isWhitespace).reverse.dropWhile Char.isWhitespace).reverse

/-- Embedding of `processAudioForKeyword` from `src/wake-word/index.ts`.  The chunk is fed
to the external spotter (`acceptWaveform` of `bufferToFloat32 data`, then the
decode-drain loop); `keyword` is the oracle for `getResult(...).keyword`.  A
truthy (non-empty) keyword whose trim is non-empty emits `wakeword` and starts
command recording. -/
def processAudioForKeyword (st : EngineState) (keyword : List Char) :
    EngineState × List EngineEvent :=
  if ¬ st.ready then (st, [])
  else if keyword ≠ [] ∧ trimChars keyword ≠ [] then
    let r := startCommandRecording st
    (r.1, EngineEvent.wakeword :: r.2)
  else (st, [])

/-- The stdout data handler installed by `startAudioCapture`:
ignore chunks when not listening or the spotter is missing; while recording a
command, append the chunk to the buffer and run `checkSilenceAndFinish`;
otherwise run keyword detection. -/
def handleChunk (cfg : RecordingConfig) (st : EngineState) (data : List Nat)
    (now : Int) (keyword : List Char) : EngineState × List EngineEvent :=
  if ¬ st.isListening ∨ ¬ st.ready then (st, [])
  else if st.isRecordingCommand then
    checkSilenceAndFinish cfg { st with audioBuffer := st.audioBuffer ++ [data] } data now
  else
    processAudioForKeyword st keyword

/-- Embedding of `start` from `src/wake-word/index.ts`: a no-op (with a warning) when the
spotter was never constructed, a no-op while already listening, otherwise
begin listening and emit `started`. -/
def startEngine (st : EngineState) : EngineState × List EngineEvent :=
  if ¬ st.ready then (st, [])
  else if st.isListening then (st, [])
  else ({ st with isListening := true }, [EngineEvent.started])

/-- Embedding of `stop` from `src/wake-word/index.ts`: clear the listening and recording
flags, kill the capture process (a side effect), emit `stopped`.  Note that
the source clears neither `audioBuffer` nor `silenceStartTime` here. -/
def stopEngine (st : EngineState) : EngineState × List EngineEvent :=
  ({ st with isListening := false, isRecordingCommand := false },
    [EngineEvent.stopped])

/-- Embedding of `initialize` from `src/wake-word/index.ts`, with the environment as
oracles: `modelInstalled` is `fs.existsSync(modelPath)` and `engineOk` is
whether the dynamic import of `sherpa-onnx-node` and the `KeywordSpotter`
construction succeed.  A missing model logs a warning and returns normally
with the spotter left unconstructed (degraded mode, `ready := false`); a
failing engine construction is caught, logged, and rethrown (`Except.error`).
The returned `Bool` is the resulting readiness of the detector. -/
def initEngine (modelInstalled engineOk : Bool) : Except String Bool :=
  if ¬ modelInstalled then Except.ok false
  else if engineOk then Except.ok true
  else Except.error "Failed to initialize Sherpa-ONNX keyword spotter"

/-- A concrete loud chunk: `n` little-endian int16 samples of value 1000
(bytes `[232, 3]` each), amplitude 1000 — above the default silence threshold
of 500.  Used for the concrete engine scenarios. -/
def loudChunk (n : Nat) : List Nat :=
  List.flatten (List.replicate n [232, 3])

theorem samplesLE_encode_cons (v : Int) (rest : List Int)
    (h₁ : -32768 ≤ v) (h₂ : v < 32768) :
    samplesLE (int16ToLEBytes v ++ encodeLE rest) =
      v :: samplesLE (encodeLE rest) := by
  have hmod : (0 : Int) ≤ v % 65536 ∧ v % 65536 < 65536 := by
    constructor
    · exact Int.emod_nonneg v (by norm_num)
    · exact Int.emod_lt_of_pos v (by norm_num)
  simp only [int16ToLEBytes, encodeLE, List.cons_append, List.nil_append, samplesLE]
  congr 1
  set u := (v % 65536).toNat with hu
  have huv : (u : Int) = v % 65536 := by
    rw [hu]; exact Int.toNat_of_nonneg hmod.1
  have hult : u < 65536 := by omega
  have hsum : u % 256 + 256 * (u / 256) = u := by omega
  rw [readInt16LE]
  simp only [hsum]
  rcases le_or_lt 0 v with hvpos | hvneg
  · have : v % 65536 = v := Int.emod_eq_of_lt hvpos (by omega)
    have huval : (u : Int) = v := by rw [huv, this]
    have : u < 32768 := by omega
    simp [this, huval]
  · have : v % 65536 = v + 65536 := by omega
    have huval : (u : Int) = v + 65536 := by rw [huv, this]
    have : ¬ u < 32768 := by omega
    simp [this, huval]

theorem samplesLE_encode (vals : List Int)
    (h : ∀ v ∈ vals, -32768 ≤ v ∧ v < 32768) :
    samplesLE (encodeLE vals) = vals := by
  induction vals with
  | nil => rfl
  | cons v rest ih =>
    have hv := h v (by simp)
    have hrest : ∀ w ∈ rest, -32768 ≤ w ∧ w < 32768 := fun w hw => h w (by simp [hw])
    have : encodeLE (v :: rest) = int16ToLEBytes v ++ encodeLE rest := by
      simp [encodeLE]
    rw [this, samplesLE_encode_cons v rest hv.1 hv.2, ih hrest]

theorem readU32LE_u32le (v : Nat) (h : v < 4294967296) : readU32LE (u32le v) = v := by
  simp only [u32le, readU32LE]
  omega

theorem readU16LE_u16le (v : Nat) (h : v < 65536) : readU16LE (u16le v) = v := by
  simp only [u16le, readU16LE]
  omega

theorem samplesLE_flatten_replicate (n b0 b1 : Nat) :
    samplesLE (List.flatten (List.replicate n [b0, b1])) =
      List.replicate n (readInt16LE b0 b1) := by
  induction n with
  | zero => rfl
  | succ n ih =>
    simp only [List.replicate_succ, List.flatten_cons, List.cons_append,
      List.nil_append, samplesLE, List.append_nil, List.nil_append, ih]
    simp [ih]

theorem length_flatten_replicate_pair (n b0 b1 : Nat) :
    (List.flatten (List.replicate n [b0, b1])).length = 2 * n := by
  simp only [List.length_flatten, List.map_replicate, List.length_cons,
    List.length_nil, List.sum_replicate, smul_eq_mul]
  omega

theorem calcAmp_flatten_replicate (n b0 b1 : Nat) (hn : n ≠ 0) :
    calculateAmplitude (List.flatten (List.replicate n [b0, b1])) =
      ((readInt16LE b0 b1).natAbs : Rat) := by
  have hcast : ((n : Rat)) ≠ 0 := Nat.cast_ne_zero.mpr hn
  rw [calculateAmplitude, samplesLE_flatten_replicate]
  simp only [List.map_replicate, List.sum_replicate, List.length_replicate, smul_eq_mul]
  push_cast
  field_simp

theorem calcAmp_loud1000 (n : Nat) (hn : n ≠ 0) :
    calculateAmplitude (loudChunk n) = 1000 := by
  rw [loudChunk, calcAmp_flatten_replicate n 232 3 hn]
  norm_num [readInt16LE]

theorem loudChunk_length (n : Nat) : (loudChunk n).length = 2 * n := by
  rw [loudChunk]
  exact length_flatten_replicate_pair n 232 3
/-- If a silent run of chunks is fed to the detector entirely at time 0
starting from a state whose stored time is JavaScript-falsy (unset or 0),
every update takes the "just started being silent" branch (re-anchoring at 0),
so `shouldEnd` never fires. -/
theorem runDetector_all_at_zero (amp : Rat) (dur : Int) :
    ∀ (chunks : List (List Nat)) (st : SilenceDetectorState),
      timeFalsy st.silenceStartTime = true →
      (∀ c ∈ chunks, calculateAmplitude c < amp) →
      (runDetector st (chunks.map (fun c => (c, 0))) amp dur).2 = false := by
  intro chunks
  induction chunks with
  | nil => intro st _ _; rfl
  | cons c rest ih =>
    intro st h0 hsil
    have hc : calculateAmplitude c < amp := hsil c (by simp)
    have hstep : updateSilenceDetector st c amp dur 0 =
        ({ st with silenceStartTime := some 0 }, false) := by
      simp [updateSilenceDetector, hc, h0]
    have hrest : ∀ d ∈ rest, calculateAmplitude d < amp :=
      fun d hd => hsil d (by simp [hd])
    simp only [List.map_cons, runDetector, List.foldl_cons, hstep, Bool.false_or]
    exact ih { st with silenceStartTime := some 0 } rfl hrest

/-- C2: a set `silenceStartTime` plus a silent chunk makes `shouldEnd` fire at
the first update at or after `silenceStartTime + silenceDurationMs`.  FALSE on
the code: the comparison is strict (`now - silenceStartTime >
silenceThresholdMs`), so at `now = silenceStartTime + silenceDurationMs`
exactly the update still returns `shouldEnd = false`.  Concretely: start time
1, duration 300 ms, silent chunk (amplitude 100 < threshold 500) arriving at
`now = 301 = 1 + 300`: the claim demands `shouldEnd = true`, the code returns
`false`. -/
theorem C2_counterexample :
    (301 : Int) ≥ 1 + 300 ∧
    calculateAmplitude [100, 0] < 500 ∧
    (updateSilenceDetector ⟨some 1, true⟩ [100, 0] 500 300 301).2 = false := by
  refine ⟨by norm_num, ?_, ?_⟩ <;>
    norm_num [updateSilenceDetector, calculateAmplitude, samplesLE, readInt16LE,
      timeFalsy]

/-- C2 (amended): for a state whose `silenceStartTime` holds a truthy (set,
non-zero) time `t` and a chunk whose amplitude is strictly below the silence
threshold, `shouldEnd` is true exactly on calls with `now - t` STRICTLY
greater than `silenceDurationMs` (clearing `silenceStartTime` when it fires),
and the update returns the state unchanged with `shouldEnd = false` on every
call with `now - t ≤ silenceDurationMs` — in particular at the instant
`now = t + silenceDurationMs` itself. -/
theorem C2_shouldEnd_strictly_after (st : SilenceDetectorState) (t : Int)
    (buffer : List Nat) (amp : Rat) (dur now : Int)
    (hset : st.silenceStartTime = some t) (ht : t ≠ 0)
    (hsil : calculateAmplitude buffer < amp) :
    ((updateSilenceDetector st buffer amp dur now).2 = true ↔ now - t > dur) ∧
    (now - t > dur →
      (updateSilenceDetector st buffer amp dur now).1.silenceStartTime = none) ∧
    (now - t ≤ dur → updateSilenceDetector st buffer amp dur now = (st, false)) := by
  have hfalsy : timeFalsy (some t) = false := by simp [timeFalsy, ht]
  by_cases hd : now - t > dur
  · refine ⟨?_, fun _ => ?_, fun hle => absurd hd (not_lt.mpr hle)⟩ <;>
      simp [updateSilenceDetector, hsil, hfalsy, hset, hd]
  · refine ⟨?_, fun h => absurd h hd, fun _ => ?_⟩ <;>
      simp [updateSilenceDetector, hsil, hfalsy, hset, hd]

/-- Witness for `C2_shouldEnd_strictly_after` at start time 1, threshold 500,
duration 300 ms, a silent chunk at `now = 302` (strictly after `1 + 300`). -/
theorem C2_shouldEnd_strictly_after_witness :
    (updateSilenceDetector ⟨some 1, true⟩ [100, 0] 500 300 302).2 = true ∧
    (updateSilenceDetector ⟨some 1, true⟩ [100, 0] 500 300 302).1.silenceStartTime
      = none := by
  have h := C2_shouldEnd_strictly_after ⟨some 1, true⟩ 1 [100, 0] 500 300 302
    rfl (by norm_num)
    (by norm_num [calculateAmplitude, samplesLE, readInt16LE])
  exact ⟨h.1.mpr (by norm_num), h.2.1 (by norm_num)⟩

/-- C4: a chunk whose amplitude is at or above the silence threshold (equality
counts as non-silent, since the source compares with strict `<`) always
resets `silenceStartTime` to unset and returns `shouldEnd = false`, for every
detector state. -/
theorem C4_nonsilent_resets (st : SilenceDetectorState) (buffer : List Nat)
    (amp : Rat) (dur now : Int) (h : amp ≤ calculateAmplitude buffer) :
    updateSilenceDetector st buffer amp dur now =
      ({ st with silenceStartTime := none }, false) := by
  have hnot : ¬ calculateAmplitude buffer < amp := not_lt.mpr h
  simp [updateSilenceDetector, hnot]

/-- Witness for `C4_nonsilent_resets` at the boundary: a chunk holding one
sample of value 500 has amplitude exactly 500, equal to the threshold 500 —
it counts as non-silent, a running silence timer (started at 7) is cleared,
and no `shouldEnd` fires. -/
theorem C4_nonsilent_resets_witness :
    calculateAmplitude [244, 1] = 500 ∧
    updateSilenceDetector ⟨some 7, true⟩ [244, 1] 500 300 1000 =
      (⟨none, true⟩, false) := by
  constructor
  · norm_num [calculateAmplitude, samplesLE, readInt16LE]
  · exact C4_nonsilent_resets ⟨some 7, true⟩ [244, 1] 500 300 1000
      (by norm_num [calculateAmplitude, samplesLE, readInt16LE])

/-- C10: a stored `silenceStartTime` of 0 is falsy, so a silent chunk resets
it to `now` with `shouldEnd = false`; the claim concludes that a silence run
whose first silent chunk arrives at monotonic time 0 can NEVER trigger
end-of-utterance.  FALSE on the code: the run is merely re-anchored at its
second chunk.  Concretely (threshold 500, duration 300 ms): silent chunks at
times 0, 100 and 401 starting from the fresh detector state — the first
anchors at 0, the second re-anchors at 100 (since 0 is falsy), and the third
fires `shouldEnd = true` because `401 - 100 > 300`. -/
theorem C10_counterexample :
    (runDetector createSilenceDetectorState
      [([100, 0], 0), ([100, 0], 100), ([100, 0], 401)] 500 300).2 = true := by
  norm_num [runDetector, updateSilenceDetector, timeFalsy, calculateAmplitude,
    samplesLE, readInt16LE, createSilenceDetectorState]

/-- C10 (amended): a stored `silenceStartTime` equal to 0 is indistinguishable
from unset (both are falsy to the guard): a silent chunk at such a state
resets `silenceStartTime` to the current time with `shouldEnd = false`.
Consequently a silence run all of whose chunks arrive at monotonic time 0
never triggers end-of-utterance; a run merely STARTING at time 0 whose later
chunks arrive at positive times is re-anchored at its second chunk and can
still trigger (see `C10_counterexample`). -/
theorem C10_zero_anchor (st : SilenceDetectorState) (buffer : List Nat)
    (amp : Rat) (dur now : Int)
    (h0 : st.silenceStartTime = some 0)
    (hsil : calculateAmplitude buffer < amp) :
    updateSilenceDetector st buffer amp dur now =
      ({ st with silenceStartTime := some now }, false) ∧
    (∀ chunks : List (List Nat), (∀ c ∈ chunks, calculateAmplitude c < amp) →
      (runDetector st (chunks.map (fun c => (c, 0))) amp dur).2 = false) := by
  have hfalsy : timeFalsy st.silenceStartTime = true := by simp [timeFalsy, h0]
  exact ⟨by simp [updateSilenceDetector, hsil, hfalsy],
    fun chunks hc => runDetector_all_at_zero amp dur chunks st hfalsy hc⟩

/-- Witness for `C10_zero_anchor`: stored time 0, a silent chunk at `now = 42`
re-anchors the detector at 42 without firing, and a pair of silent chunks at
time 0 never fires. -/
theorem C10_zero_anchor_witness :
    updateSilenceDetector ⟨some 0, true⟩ [100, 0] 500 300 42 =
      (⟨some 42, true⟩, false) ∧
    (runDetector ⟨some 0, true⟩ [([100, 0], 0), ([100, 0], 0)] 500 300).2
      = false := by
  have h := C10_zero_anchor ⟨some 0, true⟩ [100, 0] 500 300 42 rfl
    (by norm_num [calculateAmplitude, samplesLE, readInt16LE])
  refine ⟨h.1, ?_⟩
  have h2 := h.2 [[100, 0], [100, 0]]
    (by intro c hc
        simp only [List.mem_cons, List.not_mem_nil, or_false, or_self] at hc
        subst hc
        norm_num [calculateAmplitude, samplesLE, readInt16LE])
  exact h2
/-- C7: `bufferToFloat32` maps each little-endian int16 sample of an
even-length chunk to `sample / 32768`, one rational per sample, each in
`[-1, 1]`; scaling back by 32768 and rounding recovers the original sample
for every value in `[-32768, 32767]` — including `-32768` exactly (the
possible off-by-one the claim allows for does not occur: `-32768 / 32768 = -1`
and rounding `-1 * 32768` gives `-32768` back). -/
theorem C7_float_roundtrip (vals : List Int)
    (h : ∀ v ∈ vals, -32768 ≤ v ∧ v < 32768) :
    bufferToFloat32 (encodeLE vals) = vals.map (fun v : Int => (v : Rat) / 32768) ∧
    (∀ q ∈ bufferToFloat32 (encodeLE vals), -1 ≤ q ∧ q ≤ 1) ∧
    (bufferToFloat32 (encodeLE vals)).map (fun q => round (q * 32768)) = vals := by
  have hs := samplesLE_encode vals h
  have h32 : (0 : Rat) < 32768 := by norm_num
  have h1 : bufferToFloat32 (encodeLE vals) =
      vals.map (fun v : Int => (v : Rat) / 32768) := by
    rw [bufferToFloat32, hs]
  refine ⟨h1, ?_, ?_⟩
  · intro q hq
    rw [h1] at hq
    obtain ⟨v, hv, rfl⟩ := List.mem_map.mp hq
    obtain ⟨hlo, hhi⟩ := h v hv
    have hlo' : (-32768 : Rat) ≤ (v : Rat) := by exact_mod_cast hlo
    have hhi' : (v : Rat) ≤ 32768 := by
      have : (v : Rat) < 32768 := by exact_mod_cast hhi
      exact le_of_lt this
    constructor
    · rw [le_div_iff₀ h32]
      linarith
    · rw [div_le_one h32]
      exact hhi'
  · rw [h1, List.map_map]
    have hcongr : ∀ v ∈ vals,
        ((fun q => round (q * 32768)) ∘ fun v : Int => (v : Rat) / 32768) v = v := by
      intro v _
      simp only [Function.comp_apply]
      rw [div_mul_cancel₀ _ (ne_of_gt h32)]
      exact round_intCast v
    calc vals.map ((fun q => round (q * 32768)) ∘ fun v : Int => (v : Rat) / 32768)
        = vals.map id := List.map_congr_left hcongr
      _ = vals := List.map_id vals

/-- Witness for `C7_float_roundtrip` at the extreme samples `32767` and
`-32768`: the normalized values are `32767/32768` and `-1`, and scaling back
recovers both samples exactly. -/
theorem C7_float_roundtrip_witness :
    bufferToFloat32 (encodeLE [32767, -32768]) = [(32767 : Rat) / 32768, -1] ∧
    (bufferToFloat32 (encodeLE [32767, -32768])).map (fun q => round (q * 32768))
      = [32767, -32768] := by
  have h := C7_float_roundtrip [32767, -32768]
    (by intro v hv
        simp only [List.mem_cons, List.not_mem_nil, or_false] at hv
        rcases hv with rfl | rfl <;> norm_num)
  refine ⟨?_, h.2.2⟩
  rw [h.1]
  norm_num

/-- C9: `calculateAmplitude` is total.  On a chunk encoding int16 samples it
returns the mean absolute value of the samples, and on the empty chunk it
returns the defined value 0 (the source computes `0 / 0`, JavaScript `NaN`;
in the rational model division by zero is 0 — either way a defined value, not
an exception). -/
theorem C9_amplitude_total (vals : List Int)
    (h : ∀ v ∈ vals, -32768 ≤ v ∧ v < 32768) :
    calculateAmplitude (encodeLE vals) =
      (((vals.map Int.natAbs).sum : Nat) : Rat) / ((vals.length : Nat) : Rat) ∧
    calculateAmplitude [] = 0 := by
  constructor
  · simp only [calculateAmplitude, samplesLE_encode vals h]
  · norm_num [calculateAmplitude, samplesLE]

/-- Witness for `C9_amplitude_total`: the chunk encoding samples
`[1000, -1000]` has amplitude `(1000 + 1000) / 2 = 1000`, and the empty chunk
gives 0. -/
theorem C9_amplitude_total_witness :
    calculateAmplitude (encodeLE [1000, -1000]) = 1000 ∧
    calculateAmplitude [] = 0 := by
  have h := C9_amplitude_total [1000, -1000]
    (by intro v hv
        simp only [List.mem_cons, List.not_mem_nil, or_false] at hv
        rcases hv with rfl | rfl <;> norm_num)
  refine ⟨?_, h.2⟩
  rw [h.1]
  norm_num
/-- C3: WAV encoding is deterministic (it is a pure function of payload,
sample rate and channel count) and produces exactly a 44-byte header followed
by the payload unmodified: "RIFF", ChunkSize = len+36 at offset 4, "WAVE",
"fmt ", Subchunk1Size 16, AudioFormat 1, NumChannels, SampleRate, ByteRate =
sampleRate*channels*2, BlockAlign = channels*2, BitsPerSample 16, "data",
Subchunk2Size = len, all little-endian at the stated offsets.  The bounds
assumptions are the ranges for which Node's `writeUInt32LE`/`writeUInt16LE`
accept the values. -/
theorem C3_wav_layout (p : List Nat) (sr ch : Nat)
    (hlen : p.length + 36 < 4294967296)
    (hsr : sr < 4294967296)
    (hbr : sr * ch * 2 < 4294967296)
    (hch : ch * 2 < 65536) :
    saveToWav p sr ch = saveToWav p sr ch ∧
    (saveToWav p sr ch).length = 44 + p.length ∧
    (saveToWav p sr ch).take 4 = [82, 73, 70, 70] ∧
    readU32LE (((saveToWav p sr ch).drop 4).take 4) = p.length + 36 ∧
    ((saveToWav p sr ch).drop 8).take 4 = [87, 65, 86, 69] ∧
    ((saveToWav p sr ch).drop 12).take 4 = [102, 109, 116, 32] ∧
    readU32LE (((saveToWav p sr ch).drop 16).take 4) = 16 ∧
    readU16LE (((saveToWav p sr ch).drop 20).take 2) = 1 ∧
    readU16LE (((saveToWav p sr ch).drop 22).take 2) = ch ∧
    readU32LE (((saveToWav p sr ch).drop 24).take 4) = sr ∧
    readU32LE (((saveToWav p sr ch).drop 28).take 4) = sr * ch * 2 ∧
    readU16LE (((saveToWav p sr ch).drop 32).take 2) = ch * 2 ∧
    readU16LE (((saveToWav p sr ch).drop 34).take 2) = 16 ∧
    ((saveToWav p sr ch).drop 36).take 4 = [100, 97, 116, 97] ∧
    readU32LE (((saveToWav p sr ch).drop 40).take 4) = p.length ∧
    (saveToWav p sr ch).drop 44 = p := by
  have hch' : ch < 65536 := by omega
  refine ⟨rfl, ?_, ?_, ?_, ?_, ?_, ?_, ?_, ?_, ?_, ?_, ?_, ?_, ?_, ?_, ?_⟩ <;>
    simp only [saveToWav, u32le, u16le, List.cons_append, List.nil_append,
      List.take_succ_cons, List.take_zero, List.drop_succ_cons, List.drop_zero,
      List.length_cons, List.length_append, readU32LE, readU16LE] <;>
    omega
/-- Witness for `C3_wav_layout` on the payload `[1, 2, 3, 4]` at 16000 Hz
mono: ChunkSize reads back as 40 = 4 + 36 and the payload follows the 44-byte
header unmodified. -/
theorem C3_wav_layout_witness :
    readU32LE (((saveToWav [1, 2, 3, 4] 16000 1).drop 4).take 4) = 40 ∧
    (saveToWav [1, 2, 3, 4] 16000 1).drop 44 = [1, 2, 3, 4] := by
  obtain ⟨-, -, -, h4, -, -, -, -, -, -, -, -, -, -, -, h16⟩ :=
    C3_wav_layout [1, 2, 3, 4] 16000 1 (by norm_num) (by norm_num) (by norm_num)
      (by norm_num)
  exact ⟨by simpa using h4, h16⟩

/-- C8: while `Idle` (listening, spotter ready, not recording), a chunk
transitions the engine to `Recording` exactly when the spotter's result names
a non-empty keyword (its trim is non-empty); an empty or whitespace-only
keyword leaves the engine unchanged and emits nothing. -/
theorem C8_idle_transition (cfg : RecordingConfig) (st : EngineState)
    (data : List Nat) (now : Int) (kw : List Char)
    (hl : st.isListening = true) (hr : st.ready = true)
    (hi : st.isRecordingCommand = false) :
    ((handleChunk cfg st data now kw).1.isRecordingCommand = true ↔
      trimChars kw ≠ []) ∧
    (trimChars kw = [] → handleChunk cfg st data now kw = (st, [])) := by
  have hkw : trimChars kw ≠ [] → kw ≠ [] := by
    intro h hnil
    exact h (by simp [hnil, trimChars])
  by_cases htr : trimChars kw = []
  · have hcond : ¬ (kw ≠ [] ∧ trimChars kw ≠ []) := by simp [htr]
    refine ⟨?_, fun _ => ?_⟩ <;>
      simp [handleChunk, hl, hr, hi, processAudioForKeyword, hcond, htr]
  · have hcond : kw ≠ [] ∧ trimChars kw ≠ [] := ⟨hkw htr, htr⟩
    refine ⟨?_, fun h => absurd h htr⟩
    simp [handleChunk, hl, hr, hi, processAudioForKeyword, hcond,
      startCommandRecording, htr]

/-- Witness for `C8_idle_transition`: the keyword `['c']` (non-empty after
trimming) flips an idle engine into `Recording`; the whitespace-only keyword
`[' ']` leaves it idle with no events. -/
theorem C8_idle_transition_witness :
    (handleChunk ⟨16000, 300, 500, 1000⟩ ⟨true, true, false, [], none⟩
      [0, 0] 0 ['c']).1.isRecordingCommand = true ∧
    handleChunk ⟨16000, 300, 500, 1000⟩ ⟨true, true, false, [], none⟩
      [0, 0] 0 [' '] = (⟨true, true, false, [], none⟩, []) := by
  constructor
  · exact (C8_idle_transition ⟨16000, 300, 500, 1000⟩ ⟨true, true, false, [], none⟩
      [0, 0] 0 ['c'] rfl rfl rfl).1.mpr (by decide)
  · exact (C8_idle_transition ⟨16000, 300, 500, 1000⟩ ⟨true, true, false, [], none⟩
      [0, 0] 0 [' '] rfl rfl rfl).2 (by decide)

/-- C5: calling `stop()` while `Recording` emits only `stopped` (never
`command`), clears the recording and listening flags (back to a quiescent
`Idle`), a stopped engine ignores every subsequent chunk, and after a restart
the next `Recording` episode begins with an empty command buffer — so the
partially recorded audio is discarded and never delivered downstream. -/
theorem C5_stop_discards (cfg : RecordingConfig) (st : EngineState)
    (_hrec : st.isRecordingCommand = true) :
    (stopEngine st).2 = [EngineEvent.stopped] ∧
    (∀ bytes, EngineEvent.command bytes ∉ (stopEngine st).2) ∧
    (stopEngine st).1.isRecordingCommand = false ∧
    (stopEngine st).1.isListening = false ∧
    (∀ data now kw, handleChunk cfg (stopEngine st).1 data now kw
      = ((stopEngine st).1, [])) ∧
    (∀ data now kw, st.ready = true → trimChars kw ≠ [] →
      (handleChunk cfg (startEngine (stopEngine st).1).1 data now kw).1.audioBuffer
        = [] ∧
      (handleChunk cfg (startEngine (stopEngine st).1).1 data now kw).2
        = [EngineEvent.wakeword, EngineEvent.listening]) := by
  refine ⟨rfl, by simp [stopEngine], rfl, rfl, ?_, ?_⟩
  · intro data now kw
    simp [handleChunk, stopEngine]
  · intro data now kw hr htr
    have hkw : kw ≠ [] := by
      intro hnil
      exact htr (by simp [hnil, trimChars])
    have hcond : kw ≠ [] ∧ trimChars kw ≠ [] := ⟨hkw, htr⟩
    simp [handleChunk, stopEngine, startEngine, hr, processAudioForKeyword,
      hcond, startCommandRecording]

/-- Witness for `C5_stop_discards`: stopping an engine mid-recording (buffer
holding one chunk `[1, 2]`) emits only `stopped`, and after restart the wake
word `['c']` opens a fresh episode whose buffer is empty. -/
theorem C5_stop_discards_witness :
    (stopEngine ⟨true, true, true, [[1, 2]], some 5⟩).2 = [EngineEvent.stopped] ∧
    (handleChunk ⟨16000, 300, 500, 1000⟩
      (startEngine (stopEngine ⟨true, true, true, [[1, 2]], some 5⟩).1).1
      [0, 0] 0 ['c']).1.audioBuffer = [] := by
  have h := C5_stop_discards ⟨16000, 300, 500, 1000⟩
    ⟨true, true, true, [[1, 2]], some 5⟩ rfl
  exact ⟨h.1, (h.2.2.2.2.2 [0, 0] 0 ['c'] rfl (by decide)).1⟩

/-- C6: `initialize()` never throws when the spotter is unavailable.  FALSE on
the code: when the model folder exists but the `sherpa-onnx-node` import or
the `KeywordSpotter` construction fails, the `catch` block logs the error and
RETHROWS it (`throw error`), so `initialize` propagates the exception instead
of degrading. -/
theorem C6_counterexample :
    initEngine true false =
      Except.error "Failed to initialize Sherpa-ONNX keyword spotter" := rfl

/-- C6 (amended): when the keyword-spotting MODEL is not installed,
`initialize()` returns normally in a degraded mode that is surfaced to the
caller (the readiness flag stays false, and `start()` on an unready engine is
a warning no-op: the engine never leaves `Idle` and ignores every chunk);
when the model is installed and the engine loads, `initialize()` succeeds
ready; but when the model is installed and the engine fails to load, the
error is rethrown (see `C6_counterexample`). -/
theorem C6_degraded_mode (st : EngineState) (engineOk : Bool)
    (hnr : st.ready = false) :
    initEngine false engineOk = Except.ok false ∧
    initEngine true true = Except.ok true ∧
    startEngine st = (st, []) ∧
    (∀ cfg data now kw, handleChunk cfg st data now kw = (st, [])) := by
  refine ⟨rfl, rfl, ?_, ?_⟩
  · simp [startEngine, hnr]
  · intro cfg data now kw
    simp [handleChunk, hnr]

/-- Witness for `C6_degraded_mode` on a fresh unready engine. -/
theorem C6_degraded_mode_witness :
    initEngine false true = Except.ok false ∧
    startEngine ⟨false, false, false, [], none⟩
      = (⟨false, false, false, [], none⟩, []) := by
  have h := C6_degraded_mode ⟨false, false, false, [], none⟩ true rfl
  exact ⟨h.1, h.2.2.1⟩
/-- C1: with `maxDuration = 1000` ms and `sampleRate = 16000`, chunks
totalling EXACTLY 32000 bytes force finalization.  FALSE on the code: the cap
uses a strict comparison (`totalDuration > maxDuration`), and 32000 bytes is
exactly 1000 ms, so `1000 > 1000` fails and nothing is finalized.
Concretely: a recording engine with an empty buffer receives one loud
32000-byte chunk (16000 samples of value 1000, amplitude 1000 ≥ threshold
500); afterwards it is still `Recording` and has emitted no event at all —
in particular no `command`. -/
theorem C1_counterexample :
    (loudChunk 16000).length = 32000 ∧
    calculateAmplitude (loudChunk 16000) = 1000 ∧
    (handleChunk ⟨16000, 300, 500, 1000⟩ ⟨true, true, true, [], none⟩
      (loudChunk 16000) 5000 []).1.isRecordingCommand = true ∧
    (handleChunk ⟨16000, 300, 500, 1000⟩ ⟨true, true, true, [], none⟩
      (loudChunk 16000) 5000 []).2 = [] := by
  have hlen := loudChunk_length 16000
  have hamp := calcAmp_loud1000 16000 (by norm_num)
  have hns : ¬ calculateAmplitude (loudChunk 16000) < 500 := by
    rw [hamp]; norm_num
  refine ⟨by omega, hamp, ?_, ?_⟩ <;>
    simp [handleChunk, checkSilenceAndFinish, checkMaxDuration, hns, hlen] <;>
    norm_num

/-- C1 (amended): the duration cap fires only STRICTLY beyond `maxDuration`:
while `Recording`, a non-silent chunk that brings the total buffered bytes to
a duration `(totalBytes / 2 / sampleRate) * 1000` strictly greater than
`maxDuration` forces finalization — the engine leaves `Recording`, clears its
buffer and silence timer, and emits `command` with the concatenated bytes.
At exactly `maxDuration` (32000 bytes at 16000 Hz for 1000 ms) it does not
fire (see `C1_counterexample`); 32002 bytes do (witness). -/
theorem C1_duration_cap (cfg : RecordingConfig) (st : EngineState)
    (data : List Nat) (now : Int) (kw : List Char)
    (hl : st.isListening = true) (hr : st.ready = true)
    (hrec : st.isRecordingCommand = true)
    (hloud : ¬ calculateAmplitude data <
      (if cfg.silenceAmplitude = 0 then 500 else cfg.silenceAmplitude))
    (hdur : ((((st.audioBuffer.map List.length).sum + data.length : Nat) : Rat) / 2 /
        (cfg.sampleRate : Rat)) * 1000 > cfg.maxDuration) :
    handleChunk cfg st data now kw =
      ({ st with
          isRecordingCommand := false
          silenceStartTime := none
          audioBuffer := [] },
        [EngineEvent.command (st.audioBuffer.flatten ++ data)]) := by
  have htot : (((st.audioBuffer ++ [data]).map List.length).sum : Nat)
      = (st.audioBuffer.map List.length).sum + data.length := by
    simp
  simp only [handleChunk, hl, hr, hrec, Bool.not_true, Bool.false_eq_true,
    or_self, if_false, if_true, ite_true, ite_false, not_false_eq_true]
  simp only [checkSilenceAndFinish]
  rw [if_neg hloud]
  simp only [checkMaxDuration, htot]
  rw [if_pos hdur]
  simp only [finishRecording]
  simp
/-- Witness for `C1_duration_cap`: one loud 32002-byte chunk (16001 samples of
value 1000) at 16000 Hz is 1000.0625 ms > 1000 ms, so the recording engine
finalizes: back to `Idle`, buffer cleared, `command` emitted with the chunk
(the buffer was empty, so the concatenated bytes are the chunk itself). -/
theorem C1_duration_cap_witness :
    handleChunk ⟨16000, 300, 500, 1000⟩ ⟨true, true, true, [], none⟩
      (loudChunk 16001) 5000 [] =
      ({ (⟨true, true, true, [], none⟩ : EngineState) with
          isRecordingCommand := false
          silenceStartTime := none
          audioBuffer := [] },
        [EngineEvent.command
          ((⟨true, true, true, [], none⟩ : EngineState).audioBuffer.flatten ++
            loudChunk 16001)]) := by
  have hamp := calcAmp_loud1000 16001 (by norm_num)
  have hlen := loudChunk_length 16001
  exact C1_duration_cap ⟨16000, 300, 500, 1000⟩ ⟨true, true, true, [], none⟩
    (loudChunk 16001) 5000 [] rfl rfl rfl
    (by rw [hamp]; norm_num)
    (by rw [hlen]; norm_num)
